import Mathlib

/-!
Verification development for the `gcg` analysis scripts
(`sandbox/gkahn/rnn_critic/scripts/plot_pend2.py` and
`sandbox/gkahn/rnn_critic/scripts/analyze_experiment.py`).

Numeric data is embedded as exact rationals (`ℚ`); the standard deviation,
which involves a square root, lives in `ℝ`.

The cross-run aggregator `DataAverageInterpolation` is imported by
`plot_pend2.py` from `sandbox.gkahn.rnn_critic.utils.utils`, a module of this
repository that is not part of the given sources; the spec describes it as the
`StepAligner` component.  Its definitions below are therefore modelled from the
spec's own words and marked as such.
-/

/-- Arithmetic mean of a list of rationals, as computed by `np.mean`:
sum divided by length (the empty list yields `0/0 = 0` in `ℚ`;
no claim evaluates a mean of an empty list). -/
def listMean (xs : List ℚ) : ℚ := xs.sum / xs.length

/-- Population variance of a list of rationals: the mean of the squared
deviations from the mean, exactly the quantity under the square root in
`np.std` (whose default `ddof` is 0). -/
def listVar (xs : List ℚ) : ℚ := listMean (xs.map fun x => (x - listMean xs) ^ 2)

/-- Population standard deviation, as computed by `np.std` with its default
`ddof = 0`: the square root of the population variance. -/
noncomputable def listStd (xs : List ℚ) : ℝ := Real.sqrt (listVar xs)

/-- Modelled from the spec: a `Curve` is one run's ordered sequence of
(step, value) pairs, kept as two parallel lists exactly as the caller in
`plot_pend2.py` supplies them to `add_data`.  The class holding curves
(`DataAverageInterpolation` in `sandbox.gkahn.rnn_critic.utils.utils`) is not
among the given sources. -/
structure Curve where
  steps : List ℚ
  values : List ℚ
deriving DecidableEq

/-- Modelled from the spec: the `StepAligner` state is a collection of
`Curve`s, grown monotonically by `add_curve`. -/
abbrev StepAligner := List Curve

/-- Modelled from the spec: the error taxonomy of the aggregator —
`InvalidCurve` from `add_curve` on a malformed curve, `EmptyAggregator` from
`evaluate` when no curves have been added. -/
inductive AggError where
  | InvalidCurve
  | EmptyAggregator
deriving DecidableEq

/-- Modelled from the spec: `add_curve` stores one run's curve.  Precondition:
equal lengths, strictly increasing steps, at least two points; violating it
signals `InvalidCurve` and stores nothing. -/
def add_curve (agg : StepAligner) (steps values : List ℚ) :
    Except AggError StepAligner :=
  if steps.length = values.length ∧ List.Pairwise (· < ·) steps ∧ 2 ≤ steps.length
  then .ok (agg ++ [⟨steps, values⟩])
  else .error .InvalidCurve

/-- Modelled from the spec: the piecewise-linear interpolant over a curve's
(step, value) pairs.  A query at or before the first step returns the first
value and a query after the last step returns the last value (the spec leaves
the out-of-range policy to the implementer between flat extrapolation and
exclusion; flat extrapolation — clamping — is the choice fixed here, and no
claim exercises an out-of-range query). -/
def interpPts : List (ℚ × ℚ) → ℚ → ℚ
  | [], _ => 0
  | [(_, v)], _ => v
  | (s₁, v₁) :: (s₂, v₂) :: rest, q =>
      if q ≤ s₁ then v₁
      else if q ≤ s₂ then v₁ + (v₂ - v₁) * (q - s₁) / (s₂ - s₁)
      else interpPts ((s₂, v₂) :: rest) q

/-- Modelled from the spec: a curve's interpolated value at a query step. -/
def Curve.interp (c : Curve) (q : ℚ) : ℚ := interpPts (c.steps.zip c.values) q

/-- Modelled from the spec: `evaluate` returns, positionally for each query
step, the mean and the population standard deviation across the stored curves
of the per-curve linearly interpolated values; with zero stored curves it
fails with `EmptyAggregator`. -/
noncomputable def evaluate (agg : StepAligner) (query_steps : List ℚ) :
    Except AggError (List ℚ × List ℝ) :=
  if agg.isEmpty then .error .EmptyAggregator
  else .ok
    (query_steps.map fun q => listMean (agg.map fun c => c.interp q),
     query_steps.map fun q => listStd (agg.map fun c => c.interp q))

namespace plot_pend2

/-- The inner helper `moving_avg_std(idxs, data, window)` of
`process_experiments` in `plot_pend2.py` (lines 64–70): for each
`i in range(window, len(data))` it appends `np.mean(idxs[i-window:i])`,
`np.mean(data[i-window:i])` and `np.std(data[i-window:i])`, returning the
three accumulated sequences. -/
noncomputable def moving_avg_std (idxs data : List ℚ) (window : ℕ) :
    List ℚ × List ℚ × List ℝ :=
  ((List.range' window (data.length - window)).map
     fun i => listMean ((idxs.drop (i - window)).take window),
   (List.range' window (data.length - window)).map
     fun i => listMean ((data.drop (i - window)).take window),
   (List.range' window (data.length - window)).map
     fun i => listStd ((data.drop (i - window)).take window))

end plot_pend2

namespace analyze_experiment

/-- The inner helper `moving_avg_std(idxs, data, window)` of
`_plot_analyze_ChainEnv` in `analyze_experiment.py` (lines 248–253): the same
loop over `range(window, len(data))` accumulating `np.mean(data[i-window:i])`
and `np.std(data[i-window:i])`, but returning `idxs[:-window]` as the first
component (a Python slice that is empty when `window` is 0 or at least
`len(idxs)`). -/
noncomputable def moving_avg_std (idxs data : List ℚ) (window : ℕ) :
    List ℚ × List ℚ × List ℝ :=
  ((if window = 0 then [] else idxs.take (idxs.length - window)),
   (List.range' window (data.length - window)).map
     fun i => listMean ((data.drop (i - window)).take window),
   (List.range' window (data.length - window)).map
     fun i => listStd ((data.drop (i - window)).take window))

end analyze_experiment

/-- The keyword parameter names accepted by `AnalyzeRNNCritic.__init__` in
`analyze_experiment.py` line 22: `def __init__(self, folder, skip_itr=1,
max_itr=sys.maxsize)`. -/
def analyzeInitParamNames : List String := ["folder", "skip_itr", "max_itr"]

/-- The keyword argument names passed at the `AnalyzeRNNCritic(...)` call in
`process_experiments` (`plot_pend2.py` line 34), besides the positional
`folder` argument. -/
def processExperimentsKwargNames : List String := ["clear_obs", "create_new_envs"]

/-- Python call binding for keyword arguments: the call binds without a
`TypeError` exactly when every keyword argument name is among the callee's
parameter names. -/
def kwargsBind (paramNames kwargNames : List String) : Bool :=
  kwargNames.all fun k => paramNames.contains k

/-- One iteration of the `for index in range(start_index, start_index +
repeat)` loop of `process_experiments` (`plot_pend2.py` lines 32–88), with the
work after a successful construction abstracted as `body` (it loads rollouts,
smooths them and calls `data_interp.add_data`): the constructor call is
guarded by `try`/bare `except: continue`, so when the call raises the state is
left untouched. -/
def processExperimentsIter (body : StepAligner → ℕ → StepAligner)
    (s : StepAligner) (index : ℕ) : StepAligner :=
  if kwargsBind analyzeInitParamNames processExperimentsKwargNames
  then body s index else s

/-- The whole loop of `process_experiments` over
`range(start_index, start_index + repeat)`, folded over the aggregator
state. -/
def processExperimentsLoop (body : StepAligner → ℕ → StepAligner)
    (start_index nreps : ℕ) (s : StepAligner) : StepAligner :=
  (List.range' start_index nreps).foldl (processExperimentsIter body) s

/-- Modelled from the spec: the aggregator's two operations as an imperative
step on the `StepAligner` state, to express mutation (or its absence)
explicitly. -/
inductive AggOp where
  | add (steps values : List ℚ)
  | eval (query_steps : List ℚ)

/-- Modelled from the spec: the observable outcome of one aggregator
operation. -/
inductive AggOutcome where
  | added
  | failed (e : AggError)
  | stats (means : List ℚ) (stds : List ℝ)

/-- Modelled from the spec: running one operation returns the successor state
together with the observable outcome; `add_curve` replaces the state on
success, `evaluate` only reads it. -/
noncomputable def runOp (s : StepAligner) : AggOp → StepAligner × AggOutcome
  | .add steps values =>
      match add_curve s steps values with
      | .ok s' => (s', .added)
      | .error e => (s, .failed e)
  | .eval qs =>
      match evaluate s qs with
      | .ok (m, sd) => (s, .stats m sd)
      | .error e => (s, .failed e)

/-- Exactness of the interpolant at sample points: for strictly increasing
steps, querying the `i`-th step returns the `i`-th value. -/
theorem interpPts_exact :
    ∀ (s v : List ℚ), List.Pairwise (· < ·) s →
      ∀ i (hi : i < s.length) (hi' : i < v.length),
      interpPts (s.zip v) (s.get ⟨i, hi⟩) = v.get ⟨i, hi'⟩
  | [], _, _, i, hi, _ => absurd hi (Nat.not_lt_zero i)
  | _ :: _, [], _, i, _, hi' => absurd hi' (Nat.not_lt_zero i)
  | [a], x :: v', _, 0, _, _ => by simp [interpPts]
  | [a], x :: v', _, i + 1, hi, _ => absurd hi (by simp)
  | a :: b :: s', [x], _, i + 1, _, hi' => absurd hi' (by simp)
  | a :: b :: s', x :: v', hp, 0, hi, hi' => by
      cases v' <;> simp [interpPts]
  | a :: b :: s', x :: y :: v'', hp, i + 1, hi, hi' => by
      have hq_mem : (b :: s').get ⟨i, by simpa using hi⟩ ∈ b :: s' := List.get_mem _ _ _
      have haq : a < (b :: s').get ⟨i, by simpa using hi⟩ :=
        (List.pairwise_cons.mp hp).1 _ hq_mem
      have hab : a < b := (List.pairwise_cons.mp hp).1 b (by simp)
      match i with
      | 0 =>
          have hba : b - a ≠ 0 := sub_ne_zero.mpr (ne_of_gt hab)
          simp only [List.zip_cons_cons, interpPts, List.get]
          rw [if_neg (not_le.mpr hab), if_pos le_rfl]
          field_simp
      | j + 1 =>
          have hbq : b < s'.get ⟨j, by simpa using hi⟩ :=
            (List.pairwise_cons.mp (List.pairwise_cons.mp hp).2).1 _
              (List.get_mem _ _ _)
          have haq' : a < s'.get ⟨j, by simpa using hi⟩ := lt_trans hab hbq
          have ih := interpPts_exact (b :: s') (y :: v'')
            (List.pairwise_cons.mp hp).2 (j + 1) (by simpa using hi)
            (by simpa using hi')
          simp only [List.zip_cons_cons, interpPts, List.get] at ih ⊢
          rw [if_neg (not_le.mpr haq'), if_neg (not_le.mpr hbq)]
          exact ih

/-- `listMean` of a one-element list is that element. -/
theorem listMean_singleton (x : ℚ) : listMean [x] = x := by
  simp [listMean]

/-- `listVar` of a one-element list is `0`. -/
theorem listVar_singleton (x : ℚ) : listVar [x] = 0 := by
  simp [listVar, listMean]

/-- `listStd` of a one-element list is `0`. -/
theorem listStd_singleton (x : ℚ) : listStd [x] = 0 := by
  simp [listStd, listVar_singleton]

/-- Normal form of the `plot_pend2` helper: re-indexing the loop over
`range(window, len(data))` by the window's start position `j = i - window`. -/
theorem plot_moving_avg_std_eq (idxs data : List ℚ) (window : ℕ) :
    plot_pend2.moving_avg_std idxs data window =
      ((List.range (data.length - window)).map
         fun j => listMean ((idxs.drop j).take window),
       (List.range (data.length - window)).map
         fun j => listMean ((data.drop j).take window),
       (List.range (data.length - window)).map
         fun j => Real.sqrt ((listVar ((data.drop j).take window) : ℚ))) := by
  simp [plot_pend2.moving_avg_std, List.range'_eq_map_range, List.map_map,
    Function.comp_def, Nat.add_sub_cancel_left, listStd]

/-- C1: for an aggregator holding exactly one curve, `evaluate` at that
curve's own step values returns exactly that curve's values and a standard
deviation of exactly 0 at every query point; and for every stored curve, a
query step exactly equal to one of its sample steps yields that sample's
value exactly. -/
theorem C1_evaluate_exact_at_samples (steps values : List ℚ)
    (hp : List.Pairwise (· < ·) steps) (hlen : steps.length = values.length) :
    evaluate [⟨steps, values⟩] steps =
      .ok (values, List.replicate steps.length (0 : ℝ)) ∧
    ∀ (c : Curve), List.Pairwise (· < ·) c.steps →
      ∀ i (hi : i < c.steps.length) (hi' : i < c.values.length),
        c.interp (c.steps.get ⟨i, hi⟩) = c.values.get ⟨i, hi'⟩ := by
  constructor
  · have hmap : (List.map (fun q => interpPts (steps.zip values) q) steps) = values := by
      apply List.ext_get
      · simpa using hlen
      · intro n h1 h2
        simp only [List.get_eq_getElem, List.getElem_map]
        exact interpPts_exact steps values hp n (by simpa using h1) h2
    simp only [evaluate, List.isEmpty_cons, if_false, Bool.false_eq_true,
      List.map_cons, List.map_nil, listMean_singleton, listStd_singleton,
      Curve.interp]
    rw [hmap]
    simp [List.map_const']
  · intro c hc i hi hi'
    exact interpPts_exact c.steps c.values hc i hi hi'

/-- C1 witness: a concrete single curve evaluated at its own steps. -/
theorem C1_witness :
    evaluate [⟨[0, 10], [3, 7]⟩] [0, 10] =
      .ok ([3, 7], List.replicate 2 (0 : ℝ)) :=
  (C1_evaluate_exact_at_samples [0, 10] [3, 7] (by norm_num) (by norm_num)).1

/-- C2 counterexample: for the two curves `[(0,0),(10,10)]` and
`[(0,10),(10,0)]`, both interpolants equal 5 at query step 5, so `evaluate`
returns standard deviation 0 there — not 5 as the claim states. -/
theorem C2_counterexample :
    evaluate [⟨[0, 10], [0, 10]⟩, ⟨[0, 10], [10, 0]⟩] [5] =
      .ok ([5], [(0 : ℝ)]) ∧ (0 : ℝ) ≠ 5 := by
  constructor
  · have h1 : Curve.interp ⟨[0, 10], [0, 10]⟩ 5 = 5 := by
      norm_num [Curve.interp, interpPts]
    have h2 : Curve.interp ⟨[0, 10], [10, 0]⟩ 5 = 5 := by
      norm_num [Curve.interp, interpPts]
    have hv : listVar [(5 : ℚ), 5] = 0 := by
      norm_num [listVar, listMean]
    simp only [evaluate, List.isEmpty_cons, if_false, Bool.false_eq_true,
      List.map_cons, List.map_nil, h1, h2, listStd, hv]
    norm_num [listMean]
  · norm_num

/-- C2 amended: for the two curves `[(0,0),(10,10)]` and `[(0,10),(10,0)]`,
`evaluate` at query step 5 returns the linearly-interpolated value 5 for each
curve, an overall mean of 5, and a standard deviation of 0 at that query
point. -/
theorem C2_amended :
    Curve.interp ⟨[0, 10], [0, 10]⟩ 5 = 5 ∧
    Curve.interp ⟨[0, 10], [10, 0]⟩ 5 = 5 ∧
    evaluate [⟨[0, 10], [0, 10]⟩, ⟨[0, 10], [10, 0]⟩] [5] =
      .ok ([5], [(0 : ℝ)]) := by
  have h1 : Curve.interp ⟨[0, 10], [0, 10]⟩ 5 = 5 := by
    norm_num [Curve.interp, interpPts]
  have h2 : Curve.interp ⟨[0, 10], [10, 0]⟩ 5 = 5 := by
    norm_num [Curve.interp, interpPts]
  have hv : listVar [(5 : ℚ), 5] = 0 := by
    norm_num [listVar, listMean]
  refine ⟨h1, h2, ?_⟩
  simp only [evaluate, List.isEmpty_cons, if_false, Bool.false_eq_true,
    List.map_cons, List.map_nil, h1, h2, listStd, hv]
  norm_num [listMean]

/-- C3: `add_curve` fails with `InvalidCurve` exactly when its precondition
is violated (length mismatch, steps not strictly increasing, or fewer than
two points), and on success it stores exactly the supplied curve — no silent
truncation or partial storage. -/
theorem C3_add_curve_validation (agg : StepAligner) (steps values : List ℚ) :
    (add_curve agg steps values = .error .InvalidCurve ↔
      ¬(steps.length = values.length ∧ List.Pairwise (· < ·) steps ∧
        2 ≤ steps.length)) ∧
    ∀ agg', add_curve agg steps values = .ok agg' →
      agg' = agg ++ [⟨steps, values⟩] := by
  constructor
  · by_cases h : steps.length = values.length ∧ List.Pairwise (· < ·) steps ∧
        2 ≤ steps.length
    · rw [add_curve, if_pos h]
      exact iff_of_false (by simp) (not_not_intro h)
    · rw [add_curve, if_neg h]
      exact iff_of_true rfl h
  · intro agg' hok
    by_cases h : steps.length = values.length ∧ List.Pairwise (· < ·) steps ∧
        2 ≤ steps.length
    · rw [add_curve, if_pos h] at hok
      exact (Except.ok.injEq _ _ ▸ hok.symm).symm ▸ rfl
    · rw [add_curve, if_neg h] at hok
      exact absurd hok (by simp)

/-- C3 witness: a curve with non-increasing steps is rejected. -/
theorem C3_witness :
    add_curve ([] : StepAligner) [0, 5, 3] [1, 2, 4] = .error .InvalidCurve :=
  (C3_add_curve_validation [] [0, 5, 3] [1, 2, 4]).1.mpr (by decide)

/-- C4: `evaluate` on an aggregator with no curves fails with
`EmptyAggregator`; it never returns a result pair in that state. -/
theorem C4_evaluate_empty (query_steps : List ℚ) :
    evaluate ([] : StepAligner) query_steps = .error .EmptyAggregator ∧
    ∀ r, evaluate ([] : StepAligner) query_steps ≠ .ok r := by
  refine ⟨by simp [evaluate], ?_⟩
  intro r h
  simp [evaluate] at h

/-- C4 witness: the empty aggregator rejects a concrete query grid. -/
theorem C4_witness :
    evaluate ([] : StepAligner) [1, 2] = .error .EmptyAggregator :=
  (C4_evaluate_empty [1, 2]).1

/-- C5: `evaluate` never mutates the aggregator's state, and two consecutive
calls with the same query grid on the same aggregator return identical
outcomes. -/
theorem C5_evaluate_pure (s : StepAligner) (query_steps : List ℚ) :
    (runOp s (.eval query_steps)).1 = s ∧
    (runOp ((runOp s (.eval query_steps)).1) (.eval query_steps)).2 =
      (runOp s (.eval query_steps)).2 := by
  have h1 : (runOp s (.eval query_steps)).1 = s := by
    rcases h : evaluate s query_steps with e | r
    · simp [runOp, h]
    · rcases r with ⟨m, sd⟩
      simp [runOp, h]
  exact ⟨h1, by rw [h1]⟩

/-- C6: every curve held by the aggregator has strictly increasing steps —
`add_curve` rejects any curve violating this, and states built by successful
`add_curve` calls from states satisfying the invariant satisfy it again. -/
theorem C6_strictly_increasing_invariant :
    (∀ (agg : StepAligner) (steps values : List ℚ),
        ¬ List.Pairwise (· < ·) steps →
        add_curve agg steps values = .error .InvalidCurve) ∧
    (∀ (agg : StepAligner) (steps values : List ℚ) (agg' : StepAligner),
        (∀ c ∈ agg, List.Pairwise (· < ·) c.steps) →
        add_curve agg steps values = .ok agg' →
        ∀ c ∈ agg', List.Pairwise (· < ·) c.steps) := by
  constructor
  · intro agg steps values hnp
    rw [add_curve, if_neg]
    exact fun h => hnp h.2.1
  · intro agg steps values agg' hinv hok
    by_cases h : steps.length = values.length ∧ List.Pairwise (· < ·) steps ∧
        2 ≤ steps.length
    · rw [add_curve, if_pos h] at hok
      have : agg' = agg ++ [⟨steps, values⟩] := by
        exact (Except.ok.injEq _ _ ▸ hok.symm).symm ▸ rfl
      subst this
      intro c hc
      rcases List.mem_append.mp hc with hc | hc
      · exact hinv c hc
      · rcases List.mem_singleton.mp hc with rfl
        exact h.2.1
    · rw [add_curve, if_neg h] at hok
      exact absurd hok (by simp)

/-- C6 witness: a violating curve is rejected, and a state reached by a
successful `add_curve` from the empty state satisfies the invariant. -/
theorem C6_witness :
    add_curve ([] : StepAligner) [5, 4] [1, 2] = .error .InvalidCurve ∧
    ∀ c ∈ ([⟨[0, 1], [2, 3]⟩] : StepAligner), List.Pairwise (· < ·) c.steps := by
  constructor
  · exact C6_strictly_increasing_invariant.1 [] [5, 4] [1, 2] (by decide)
  · exact C6_strictly_increasing_invariant.2 [] [0, 1] [2, 3]
      [⟨[0, 1], [2, 3]⟩] (by simp) (by rfl)

/-- C7: for equal-length `idxs` and `data` and `0 < window < len(data)`, the
`moving_avg_std` helper of `plot_pend2.py` returns three sequences of length
`len(data) - window` whose `j`-th entries are the mean of
`idxs[j..j+window-1]`, the mean of `data[j..j+window-1]`, and the population
standard deviation of `data[j..j+window-1]`; when `len(data) ≤ window` all
three sequences are empty. -/
theorem C7_moving_avg_std_plot (idxs data : List ℚ) (window : ℕ)
    (hlen : idxs.length = data.length) :
    (0 < window → window < data.length →
      plot_pend2.moving_avg_std idxs data window =
        ((List.range (data.length - window)).map
           fun j => listMean ((idxs.drop j).take window),
         (List.range (data.length - window)).map
           fun j => listMean ((data.drop j).take window),
         (List.range (data.length - window)).map
           fun j => Real.sqrt ((listVar ((data.drop j).take window) : ℚ))) ∧
      (plot_pend2.moving_avg_std idxs data window).1.length =
        data.length - window ∧
      (plot_pend2.moving_avg_std idxs data window).2.1.length =
        data.length - window ∧
      (plot_pend2.moving_avg_std idxs data window).2.2.length =
        data.length - window) ∧
    (data.length ≤ window →
      plot_pend2.moving_avg_std idxs data window = ([], [], [])) := by
  constructor
  · intro _ _
    refine ⟨plot_moving_avg_std_eq idxs data window, ?_, ?_, ?_⟩ <;>
      simp [plot_pend2.moving_avg_std]
  · intro h
    simp [plot_pend2.moving_avg_std, Nat.sub_eq_zero_of_le h]

/-- C7 witness: the helper on concrete lists with window 1. -/
theorem C7_witness :
    plot_pend2.moving_avg_std [1, 2, 3] [4, 5, 6] 1 =
      ((List.range 2).map fun j => listMean (([1, 2, 3].drop j).take 1),
       (List.range 2).map fun j => listMean (([4, 5, 6].drop j).take 1),
       (List.range 2).map
         fun j => Real.sqrt ((listVar (([4, 5, 6].drop j).take 1) : ℚ))) :=
  ((C7_moving_avg_std_plot [1, 2, 3] [4, 5, 6] 1 (by decide)).1 (by decide)
    (by decide)).1

/-- C8: for every nonempty aggregator and every query sequence, `evaluate`
returns two sequences of length `len(query_steps)` whose entry at each
position is the cross-curve mean (respectively population standard deviation)
of the interpolated values at the query step in that position. -/
theorem C8_evaluate_positional (agg : StepAligner) (query_steps : List ℚ)
    (hne : agg ≠ []) :
    ∃ means stds,
      evaluate agg query_steps = .ok (means, stds) ∧
      means.length = query_steps.length ∧
      stds.length = query_steps.length ∧
      (∀ j (hj : j < query_steps.length) (hj' : j < means.length),
        means.get ⟨j, hj'⟩ =
          listMean (agg.map fun c => c.interp (query_steps.get ⟨j, hj⟩))) ∧
      (∀ j (hj : j < query_steps.length) (hj' : j < stds.length),
        stds.get ⟨j, hj'⟩ =
          listStd (agg.map fun c => c.interp (query_steps.get ⟨j, hj⟩))) := by
  refine ⟨query_steps.map fun q => listMean (agg.map fun c => c.interp q),
    query_steps.map fun q => listStd (agg.map fun c => c.interp q),
    ?_, by simp, by simp, ?_, ?_⟩
  · rw [evaluate, if_neg]
    simp [hne]
  · intro j hj hj'
    simp
  · intro j hj hj'
    simp

/-- C8 witness: a concrete one-curve aggregator with a one-point query
grid. -/
theorem C8_witness :
    ∃ means stds,
      evaluate [Curve.mk [0, 1] [2, 3]] [0] = .ok (means, stds) ∧
      means.length = 1 ∧ stds.length = 1 ∧
      (∀ j (hj : j < 1) (hj' : j < means.length),
        means.get ⟨j, hj'⟩ =
          listMean (([Curve.mk [0, 1] [2, 3]] : StepAligner).map
            fun c => c.interp (([0] : List ℚ).get ⟨j, hj⟩))) ∧
      (∀ j (hj : j < 1) (hj' : j < stds.length),
        stds.get ⟨j, hj'⟩ =
          listStd (([Curve.mk [0, 1] [2, 3]] : StepAligner).map
            fun c => c.interp (([0] : List ℚ).get ⟨j, hj⟩))) :=
  C8_evaluate_positional [Curve.mk [0, 1] [2, 3]] [0] (by simp)

/-- C9: the constructor call `AnalyzeRNNCritic(folder, clear_obs=False,
create_new_envs=False)` in `process_experiments` passes keyword arguments
`__init__` does not accept, so it raises `TypeError` on every iteration; the
bare `except: continue` is taken each time and the loop body after the `try`
(in particular every `add_data` call) never runs, leaving the aggregator
state untouched. -/
theorem C9_constructor_type_error :
    kwargsBind analyzeInitParamNames processExperimentsKwargNames = false ∧
    ∀ (body : StepAligner → ℕ → StepAligner) (start_index nreps : ℕ)
      (s : StepAligner),
      processExperimentsLoop body start_index nreps s = s := by
  have hb : kwargsBind analyzeInitParamNames processExperimentsKwargNames
      = false := by decide
  refine ⟨hb, ?_⟩
  intro body start_index nreps s
  rw [processExperimentsLoop]
  generalize List.range' start_index nreps = l
  induction l generalizing s with
  | nil => rfl
  | cons a t ih =>
      rw [List.foldl_cons]
      have : processExperimentsIter body s a = s := by
        rw [processExperimentsIter, if_neg]
        simp [hb]
      rw [this]
      exact ih s

/-- C10: for equal-length `idxs` and `data` and `0 < window < len(data)`, the
`moving_avg_std` helpers of `plot_pend2.py` and `analyze_experiment.py`
return identical means and identical stds sequences; they differ only in the
first returned sequence — per-window means of `idxs` versus the prefix
`idxs[:-window]`. -/
theorem C10_moving_avg_std_agree (idxs data : List ℚ) (window : ℕ)
    (hlen : idxs.length = data.length) (hw : 0 < window)
    (hlt : window < data.length) :
    (plot_pend2.moving_avg_std idxs data window).2.1 =
      (analyze_experiment.moving_avg_std idxs data window).2.1 ∧
    (plot_pend2.moving_avg_std idxs data window).2.2 =
      (analyze_experiment.moving_avg_std idxs data window).2.2 ∧
    (plot_pend2.moving_avg_std idxs data window).1 =
      ((List.range (data.length - window)).map
        fun j => listMean ((idxs.drop j).take window)) ∧
    (analyze_experiment.moving_avg_std idxs data window).1 =
      idxs.take (idxs.length - window) := by
  refine ⟨rfl, rfl, ?_, ?_⟩
  · exact congrArg (·.1) (plot_moving_avg_std_eq idxs data window)
  · rw [analyze_experiment.moving_avg_std]
    exact if_neg (Nat.pos_iff_ne_zero.mp hw)

/-- C10 witness: the two helpers on concrete lists with window 1. -/
theorem C10_witness :
    (plot_pend2.moving_avg_std [1, 2, 3] [4, 5, 6] 1).2.1 =
      (analyze_experiment.moving_avg_std [1, 2, 3] [4, 5, 6] 1).2.1 ∧
    (plot_pend2.moving_avg_std [1, 2, 3] [4, 5, 6] 1).2.2 =
      (analyze_experiment.moving_avg_std [1, 2, 3] [4, 5, 6] 1).2.2 ∧
    (plot_pend2.moving_avg_std [1, 2, 3] [4, 5, 6] 1).1 =
      ((List.range 2).map fun j => listMean (([1, 2, 3].drop j).take 1)) ∧
    (analyze_experiment.moving_avg_std [1, 2, 3] [4, 5, 6] 1).1 =
      [1, 2, 3].take 2 :=
  C10_moving_avg_std_agree [1, 2, 3] [4, 5, 6] 1 (by decide) (by decide)
    (by decide)
